import Mathlib

/-!
Verification development for the tourism-site content-management backend
(apps/main: models.py, admin.py, templatetags/utils.py).

The Python source is shallowly embedded: pure logic becomes Lean functions,
the database becomes explicit state (association lists of rows), and
raising code returns Except or an explicit error component.  Machine reals
used by the image library for aspect computations are modelled exactly by
cross-multiplied natural-number arithmetic.
-/

namespace MainApp

/-! ## Images and the PIL thumbnail operation -/

/-- A decoded raster image: pixel dimensions plus its color mode
(as reported by PIL, for example "RGB", "RGBA", "P"). -/
structure Img where
  width : Nat
  height : Nat
  mode : String
deriving Repr, DecidableEq

/-- Ceiling division on naturals, as used to model math.ceil of an exact
nonnegative rational a / b. -/
def natCeilDiv (a b : Nat) : Nat := (a + b - 1) / b

/-- PIL round_aspect for the branch that clamps the height to mh and rounds
the width towards mh * w / h: of floor and ceiling of that rational, the one
whose ratio to mh is closest to the aspect w / h is chosen (the floor on a
tie, as Python min keeps the first argument), and the result is at least 1. -/
def roundAspectW (w h mh : Nat) : Nat :=
  let fl := mh * w / h
  let ce := natCeilDiv (mh * w) h
  max (if mh * w - fl * h ≤ ce * h - mh * w then fl else ce) 1

/-- PIL round_aspect for the branch that clamps the width to mw and rounds
the height towards mw * h / w.  Here the key function compares
the ratios mw / n against the aspect w / h, treating n = 0 as a perfect
match; the comparison is cross-multiplied over the common positive
denominators. -/
def roundAspectH (w h mw : Nat) : Nat :=
  let fl := mw * h / w
  let ce := natCeilDiv (mw * h) w
  max (if fl = 0 then fl
       else if (mw * h - fl * w) * ce ≤ (ce * w - mw * h) * fl then fl else ce) 1

/-- PIL Image.thumbnail semantics on dimensions: no resize when the image
already fits the bounding box (mw, mh); otherwise the dimension hitting the
box first is clamped and the other is rounded preserving aspect ratio.
The branch test x / y >= aspect of the source is the exact comparison
mw / mh >= w / h, written cross-multiplied. -/
def thumbnail (img : Img) (mw mh : Nat) : Img :=
  if img.width ≤ mw ∧ img.height ≤ mh then img
  else if mh * img.width ≤ mw * img.height then
    { img with width := roundAspectW img.width img.height mh, height := mh }
  else
    { img with width := mw, height := roundAspectH img.width img.height mw }

/-! ### Arithmetic facts for the rounding helpers -/

theorem div_mul_bounds (a h : Nat) (hh : 0 < h) :
    a / h * h ≤ a ∧ a < a / h * h + h := by
  have h1 := Nat.div_add_mod a h
  have h2 := Nat.mod_lt a hh
  have h3 : a / h * h = h * (a / h) := Nat.mul_comm _ _
  omega

theorem natCeilDiv_bounds (a h : Nat) (hh : 0 < h) :
    a ≤ natCeilDiv a h * h ∧ natCeilDiv a h * h < a + h := by
  cases a with
  | zero =>
    have hz : natCeilDiv 0 h = 0 := by
      unfold natCeilDiv
      exact Nat.div_eq_of_lt (by omega)
    rw [hz]
    omega
  | succ n =>
    have hc : natCeilDiv (n + 1) h = n / h + 1 := by
      unfold natCeilDiv
      have he : n + 1 + h - 1 = n + h := by omega
      rw [he, Nat.add_div_right _ hh]
    have hb := div_mul_bounds n h hh
    have hm : (n / h + 1) * h = n / h * h + h := by ring
    rw [hc, hm]
    omega

theorem natCeilDiv_le_of_le (a b h : Nat) (hh : 0 < h) (hab : a ≤ b * h) :
    natCeilDiv a h ≤ b := by
  by_contra hcon
  have hb1 : b + 1 ≤ natCeilDiv a h := by omega
  have h2 := (natCeilDiv_bounds a h hh).2
  have h3 : (b + 1) * h ≤ natCeilDiv a h * h := Nat.mul_le_mul_right h hb1
  have h4 : (b + 1) * h = b * h + h := by ring
  omega

theorem div_le_of_le (a b h : Nat) (hh : 0 < h) (hab : a ≤ b * h) :
    a / h ≤ b := by
  have h1 := (div_mul_bounds a h hh).1
  by_contra hcon
  have hb1 : b + 1 ≤ a / h := by omega
  have h3 : (b + 1) * h ≤ a / h * h := Nat.mul_le_mul_right h hb1
  have h4 : (b + 1) * h = b * h + h := by ring
  omega

theorem max_one_mul_bounds (x a h : Nat) (hh : 0 < h)
    (hb1 : x * h ≤ a + h) (hb2 : a ≤ x * h + h) (hsmall : x = 0 → a ≤ h) :
    max x 1 * h ≤ a + h ∧ a ≤ max x 1 * h + h := by
  rcases Nat.eq_zero_or_pos x with h0 | h0
  · subst h0
    have hm : max 0 1 = 1 := rfl
    rw [hm, Nat.one_mul]
    have := hsmall rfl
    omega
  · have hm : max x 1 = x := Nat.max_eq_left h0
    rw [hm]
    exact ⟨hb1, hb2⟩

theorem roundAspectW_le (w h mh mw : Nat) (hh : 0 < h) (hmw : 0 < mw)
    (hle : mh * w ≤ mw * h) : roundAspectW w h mh ≤ mw := by
  have hfl : mh * w / h ≤ mw := div_le_of_le _ _ _ hh hle
  have hce : natCeilDiv (mh * w) h ≤ mw := natCeilDiv_le_of_le _ _ _ hh hle
  unfold roundAspectW
  dsimp only
  split
  · exact max_le hfl hmw
  · exact max_le hce hmw

theorem roundAspectW_aspect (w h mh : Nat) (hh : 0 < h) :
    roundAspectW w h mh * h ≤ mh * w + h ∧
    mh * w ≤ roundAspectW w h mh * h + h := by
  have hfb := div_mul_bounds (mh * w) h hh
  have hcb := natCeilDiv_bounds (mh * w) h hh
  unfold roundAspectW
  dsimp only
  split
  · exact max_one_mul_bounds _ _ _ hh (by omega) (by omega)
      (fun h0 => by rw [h0, Nat.zero_mul] at hfb; omega)
  · exact max_one_mul_bounds _ _ _ hh (by omega) (by omega)
      (fun h0 => by rw [h0, Nat.zero_mul] at hcb; omega)

theorem roundAspectH_le (w h mw mh : Nat) (hw : 0 < w) (hmh : 0 < mh)
    (hle : mw * h ≤ mh * w) : roundAspectH w h mw ≤ mh := by
  have hfl : mw * h / w ≤ mh := div_le_of_le _ _ _ hw hle
  have hce : natCeilDiv (mw * h) w ≤ mh := natCeilDiv_le_of_le _ _ _ hw hle
  unfold roundAspectH
  dsimp only
  split
  · exact max_le hfl hmh
  · split
    · exact max_le hfl hmh
    · exact max_le hce hmh

theorem roundAspectH_aspect (w h mw : Nat) (hw : 0 < w) :
    roundAspectH w h mw * w ≤ mw * h + w ∧
    mw * h ≤ roundAspectH w h mw * w + w := by
  have hfb := div_mul_bounds (mw * h) w hw
  have hcb := natCeilDiv_bounds (mw * h) w hw
  unfold roundAspectH
  dsimp only
  split
  · exact max_one_mul_bounds _ _ _ hw (by omega) (by omega)
      (fun h0 => by rw [h0, Nat.zero_mul] at hfb; omega)
  · split
    · exact max_one_mul_bounds _ _ _ hw (by omega) (by omega)
        (fun h0 => by rw [h0, Nat.zero_mul] at hfb; omega)
    · exact max_one_mul_bounds _ _ _ hw (by omega) (by omega)
        (fun h0 => by rw [h0, Nat.zero_mul] at hcb; omega)

/-! ### Thumbnail lemmas -/

theorem thumbnail_eq_of_fits (img : Img) (mw mh : Nat)
    (h1 : img.width ≤ mw) (h2 : img.height ≤ mh) :
    thumbnail img mw mh = img := by
  unfold thumbnail
  rw [if_pos ⟨h1, h2⟩]

theorem thumbnail_bounds (img : Img) (mw mh : Nat)
    (hw : 0 < img.width) (hh : 0 < img.height)
    (hmw : 0 < mw) (hmh : 0 < mh)
    (hnot : ¬(img.width ≤ mw ∧ img.height ≤ mh)) :
    (thumbnail img mw mh).width ≤ mw ∧ (thumbnail img mw mh).height ≤ mh := by
  unfold thumbnail
  rw [if_neg hnot]
  by_cases hcond : mh * img.width ≤ mw * img.height
  · rw [if_pos hcond]
    exact ⟨roundAspectW_le _ _ _ _ hh hmw hcond, Nat.le_refl mh⟩
  · rw [if_neg hcond]
    exact ⟨Nat.le_refl mw,
      roundAspectH_le _ _ _ _ hw hmh (Nat.le_of_lt (Nat.lt_of_not_le hcond))⟩

theorem thumbnail_aspect (img : Img) (mw mh : Nat)
    (hw : 0 < img.width) (hh : 0 < img.height)
    (hnot : ¬(img.width ≤ mw ∧ img.height ≤ mh)) :
    (thumbnail img mw mh).width * img.height ≤
      (thumbnail img mw mh).height * img.width + max img.width img.height ∧
    (thumbnail img mw mh).height * img.width ≤
      (thumbnail img mw mh).width * img.height + max img.width img.height := by
  have hmaxw := Nat.le_max_left img.width img.height
  have hmaxh := Nat.le_max_right img.width img.height
  unfold thumbnail
  rw [if_neg hnot]
  by_cases hcond : mh * img.width ≤ mw * img.height
  · rw [if_pos hcond]
    have ha := roundAspectW_aspect img.width img.height mh hh
    dsimp only
    omega
  · rw [if_neg hcond]
    have ha := roundAspectH_aspect img.width img.height mw hw
    dsimp only
    omega

/-! ## Files, fields and the Image Compression Utility
(models.py, ImageCompressionMixin) -/

/-- The bytes of an uploaded file, as far as Image.open is concerned:
either they decode to an image or decoding raises. -/
inductive FileData where
  | image (img : Img)
  | corrupt
deriving Repr, DecidableEq

/-- Encoding parameters recorded for a payload produced by img.save:
the format string and the keyword arguments quality and optimize. -/
structure Encoding where
  format : String
  quality : Nat
  optimize : Bool
deriving Repr, DecidableEq

/-- The value of a Django file field: the storage name, the bytes, the
encoding those bytes are known to carry (none for an arbitrary upload) and
the declared content type (none for an arbitrary upload). -/
structure FieldFile where
  name : String
  data : FileData
  encoding : Option Encoding
  contentType : Option String
deriving Repr, DecidableEq

/-- A per-field image compression policy entry, as found in
image_compression_config: each key is optional and defaults apply. -/
structure CompressConfig where
  max_width : Option Nat
  max_height : Option Nat
  quality : Option Nat
deriving Repr, DecidableEq

/-- ImageCompressionMixin.default_max_width. -/
def default_max_width : Nat := 1280

/-- ImageCompressionMixin.default_max_height. -/
def default_max_height : Nat := 1280

/-- ImageCompressionMixin.default_quality. -/
def default_quality : Nat := 70

/-- Characters of a path after its last slash, modelling how pathlib takes
the final component of Path(field.name). -/
def afterLastSlash (l : List Char) : List Char :=
  l.foldl (fun acc c => if c = '/' then [] else acc ++ [c]) []

/-- Position of the last dot in a character list, if any. -/
def lastDotIdx : List Char → Option Nat
  | [] => Option.none
  | c :: cs =>
    match lastDotIdx cs with
    | some i => some (i + 1)
    | Option.none => if c = '.' then some 0 else Option.none

/-- Stem of a file name as computed by pathlib: the suffix after the last
dot is dropped only when that dot is neither the first nor the last
character of the name. -/
def stemChars (name : List Char) : List Char :=
  match lastDotIdx name with
  | some i => if 0 < i ∧ i + 1 < name.length then name.take i else name
  | Option.none => name

/-- Path(s).stem for a storage path s. -/
def fileStem (s : String) : String :=
  String.mk (stemChars (afterLastSlash s.data))

/-- Translation of ImageCompressionMixin._compress_image_field, acting on
the value of one image field.  The result is ok none when the method
returns early without assigning (empty field), ok (some f) when it
assigns the replacement InMemoryUploadedFile f, and error when Image.open
raises because the bytes do not decode. -/
def _compress_image_field (field : Option FieldFile) (config : CompressConfig) :
    Except String (Option FieldFile) :=
  match field with
  | Option.none => Except.ok Option.none
  | some f =>
    if f.name = "" then Except.ok Option.none
    else
      match f.data with
      | FileData.corrupt => Except.error "UnidentifiedImageError"
      | FileData.image img0 =>
        let img1 := if img0.mode = "RGB" then img0 else { img0 with mode := "RGB" }
        let mw := config.max_width.getD default_max_width
        let mh := config.max_height.getD default_max_height
        let q := config.quality.getD default_quality
        let img2 := thumbnail img1 mw mh
        Except.ok (some
          { name := fileStem f.name ++ ".jpg"
            data := FileData.image img2
            encoding := some { format := "JPEG", quality := q, optimize := true }
            contentType := some "image/jpeg" })

/-! ## Entities and the save hook -/

/-- The state of one model instance relevant to the save hook: its primary
key (none before the first insert) and its image fields, keyed by field
name in declaration order.  Non-file columns play no role in the hook and
are omitted. -/
structure Entity where
  pk : Option Nat
  fields : List (String × Option FieldFile)
deriving Repr, DecidableEq

/-- getattr(self, field_name, None) over the image fields of an instance:
a missing attribute yields the None default, exactly as in
_compress_image_field. -/
def getField (e : Entity) (fn : String) : Option FieldFile :=
  match e.fields.lookup fn with
  | some v => v
  | Option.none => Option.none

/-- setattr(self, field_name, value) restricted to the model columns the
row persists. -/
def setField (e : Entity) (fn : String) (v : Option FieldFile) : Entity :=
  { e with fields := e.fields.map (fun p => if p.1 = fn then (fn, v) else p) }

/-- Translation of ImageCompressionMixin.compress_images: iterate the
config entries in dict insertion order, compressing and reassigning each
field; the first decoding failure propagates. -/
def compress_images : List (String × CompressConfig) → Entity →
    Except String Entity
  | [], e => Except.ok e
  | (fn, c) :: rest, e =>
    match _compress_image_field (getField e fn) c with
    | Except.error err => Except.error err
    | Except.ok Option.none => compress_images rest e
    | Except.ok (some nf) => compress_images rest (setField e fn (some nf))

/-- A save with update_fields: only the listed columns of the in-memory
instance are written over the stored row. -/
def writeFields (stored self : Entity) (names : List String) : Entity :=
  { stored with
    fields := stored.fields.map
      (fun p => if names.contains p.1 then (p.1, getField self p.1) else p) }

/-- Translation of ImageCompressionMixin.save for the classes that list
the mixin before models.Model (Excursion, ExcursionImage), so that the
mixin method is the one dispatched to.  First super().save() performs the
raw write, then compress_images runs, then a second save restricted to the
configured fields.  The result is the persisted row after the call
together with the raised error, if any: on a decoding failure the first,
raw write has already happened and remains. -/
def mixinSave (cfg : List (String × CompressConfig)) (self : Entity) :
    Option Entity × Option String :=
  let raw := self
  match compress_images cfg self with
  | Except.error e => (some raw, some e)
  | Except.ok self2 => (some (writeFields raw self2 (cfg.map Prod.fst)), Option.none)

/-- SiteSettings.image_compression_config, as written in the source: its
single key is the string banner, which is not the name of any field of the
model (the image field is banner_image). -/
def SiteSettings_image_compression_config : List (String × CompressConfig) :=
  [("banner", { max_width := some 1080, max_height := some 520, quality := some 75 })]

/-- Excursion.image_compression_config. -/
def Excursion_image_compression_config : List (String × CompressConfig) :=
  [("cover", { max_width := some 1280, max_height := some 1280, quality := some 75 }),
   ("cover_head", { max_width := some 1280, max_height := some 1280, quality := some 75 })]

/-- ExcursionImage.image_compression_config. -/
def ExcursionImage_image_compression_config : List (String × CompressConfig) :=
  [("image", { max_width := some 1280, max_height := some 1280, quality := some 75 })]

/-! ## The SiteSettings singleton (models.py) -/

/-- A database write of one row: UPDATE the row carrying the same primary
key when it exists, INSERT otherwise (the fallback Model.save performs). -/
def upsert (t : List Entity) (e : Entity) : List Entity :=
  if t.any (fun r => r.pk == e.pk) then
    t.map (fun r => if r.pk == e.pk then e else r)
  else t ++ [e]

/-- Translation of SiteSettings.save.  The bases of SiteSettings are
(models.Model, ImageCompressionMixin), so models.Model precedes the mixin
in the method resolution order; the super().save call inside this method
therefore dispatches to models.Model.save, which performs the database
write without any cooperative super().save call of its own.  As a
consequence ImageCompressionMixin.save and compress_images never run on a
SiteSettings save, and the write below is the only one.  An instance with
no primary key raises ValidationError when a row already exists, otherwise
it takes pk 1; the table is returned together with the outcome. -/
def SiteSettings_save (t : List Entity) (self : Entity) :
    List Entity × Except String Entity :=
  match self.pk with
  | Option.none =>
    if t.isEmpty then
      let s : Entity := { self with pk := some 1 }
      (upsert t s, Except.ok s)
    else (t, Except.error "ValidationError")
  | some _ => (upsert t self, Except.ok self)

/-- A freshly constructed SiteSettings() with all fields blank. -/
def blankSettings : Entity :=
  { pk := Option.none
    fields := [("logo", Option.none), ("tursab_image", Option.none),
               ("banner_image", Option.none)] }

/-- Translation of SiteSettings.load: get_or_create(pk=1) returns the
existing row whose primary key is 1, or constructs an instance with pk 1
and saves it. -/
def SiteSettings_load (t : List Entity) : List Entity × Entity :=
  match t.find? (fun r => r.pk == some 1) with
  | some e => (t, e)
  | Option.none =>
    let e : Entity := { blankSettings with pk := some 1 }
    ((SiteSettings_save t e).1, e)

/-! ## Content rows and the template tag helpers (templatetags/utils.py) -/

/-- An Excursion row, with the column the visibility claims are about. -/
structure ExcursionRow where
  id : Nat
  is_published : Bool
deriving Repr, DecidableEq

/-- A Review row. -/
structure ReviewRow where
  id : Nat
  is_published : Bool
deriving Repr, DecidableEq

/-- A FAQ row. -/
structure FAQRow where
  id : Nat
  is_published : Bool
deriving Repr, DecidableEq

/-- The tables the template helpers read.  Each list holds every persisted
row of its model; the Meta default orderings only arrange the sequence and
are not at issue in any claim about these helpers. -/
structure MainDb where
  excursions : List ExcursionRow
  reviews : List ReviewRow
  faqs : List FAQRow
  settings : List Entity
deriving Repr, DecidableEq

/-- Names of the class attributes SiteSettings defines that resolve on an
attribute lookup of the form models.SiteSettings.name; the model defines
save and load (plus the manager objects), and nothing called get_solo. -/
def siteSettingsHasAttr (name : String) : Bool :=
  name == "save" || name == "load" || name == "objects"

/-- Translation of the template tag get_site_settings: it evaluates
models.SiteSettings.get_solo().  SiteSettings defines no attribute
get_solo (its accessor is load), so the attribute lookup raises
AttributeError before anything is read. -/
def get_site_settings (db : MainDb) : Except String Entity :=
  if siteSettingsHasAttr "get_solo" then Except.ok (SiteSettings_load db.settings).2
  else Except.error "AttributeError"

/-- Translation of get_excursion_list: Excursion.objects.all(), with no
filter applied. -/
def get_excursion_list (db : MainDb) : List ExcursionRow := db.excursions

/-- Translation of get_review_list: Review.objects.all(). -/
def get_review_list (db : MainDb) : List ReviewRow := db.reviews

/-- Translation of get_faq_list: FAQ.objects.all(). -/
def get_faq_list (db : MainDb) : List FAQRow := db.faqs

/-- Default ModelAdmin.get_queryset for ExcursionAdmin: the default
manager of the model, that is every row; list_filter only adds opt-in UI
filters and hides nothing by default. -/
def adminExcursionQueryset (db : MainDb) : List ExcursionRow := db.excursions

/-! ## The index template filter (templatetags/utils.py) -/

/-- A template-level Python value handed to the index filter. -/
inductive PyVal where
  | vstr (s : String)
  | vint (n : Int)
  | vnone
deriving Repr, DecidableEq

/-- Outcome of a Python expression: a value or a raised exception. -/
inductive TRes (α : Type) where
  | ok (a : α)
  | exn (e : String)
deriving Repr, DecidableEq

/-- int(i): an int passes through, a string parses as a signed decimal or
raises ValueError, None raises TypeError. -/
def pyToInt : PyVal → TRes Int
  | PyVal.vint n => TRes.ok n
  | PyVal.vstr s =>
    match s.toInt? with
    | some n => TRes.ok n
    | Option.none => TRes.exn "ValueError"
  | PyVal.vnone => TRes.exn "TypeError"

/-- list_obj[j] with Python index semantics: a negative index counts from
the end, and an index out of range raises IndexError. -/
def pyGetItem (l : List PyVal) (i : Int) : TRes PyVal :=
  let j := if i < 0 then i + l.length else i
  if 0 ≤ j then
    match l.get? j.toNat with
    | some v => TRes.ok v
    | Option.none => TRes.exn "IndexError"
  else TRes.exn "IndexError"

/-- The try body of the index filter: return list_obj[int(i)]. -/
def indexBody (l : List PyVal) (i : PyVal) : TRes PyVal :=
  match pyToInt i with
  | TRes.exn e => TRes.exn e
  | TRes.ok n => pyGetItem l n

/-- Translation of the index filter.  The body runs inside try, and the
finally block ends in return "": in Python a return inside finally
replaces both the return value of the body and any exception in flight,
so the filter always produces the empty string. -/
def index (l : List PyVal) (i : PyVal) : PyVal :=
  let _ := indexBody l i
  PyVal.vstr ""

/-! ## The upload path builder (models.py, upload_to) -/

/-- What upload_to reads from one entry of instance._meta.fields: the
field name and whether getattr(field, "upload_to", None) is the shared
upload_to function itself. -/
structure FieldMeta where
  name : String
  usesUploadTo : Bool
deriving Repr, DecidableEq

/-- What upload_to reads from the instance: the app label, the lowercased
class name and the declared fields in order. -/
structure InstanceMeta where
  app_label : String
  model_name : String
  fields : List FieldMeta
deriving Repr, DecidableEq

/-- Translation of upload_to: scan the declared fields for the first one
whose upload_to is this same function (the receiving field is not
consulted), fall back to the name file, and join the path segments. -/
def upload_to (inst : InstanceMeta) (filename : String) : String :=
  let field_name :=
    match inst.fields.find? (fun f => f.usesUploadTo) with
    | some f => f.name
    | Option.none => "file"
  inst.app_label ++ "/" ++ inst.model_name ++ "/" ++ field_name ++ "/" ++ filename

/-- The _meta.fields of SiteSettings in declaration order, with the three
image fields all passing upload_to=upload_to. -/
def siteSettingsMeta : InstanceMeta :=
  { app_label := "main"
    model_name := "sitesettings"
    fields :=
      [{ name := "id", usesUploadTo := false },
       { name := "logo", usesUploadTo := true },
       { name := "slogan", usesUploadTo := false },
       { name := "copyright_text", usesUploadTo := false },
       { name := "tursab_image", usesUploadTo := true },
       { name := "address", usesUploadTo := false },
       { name := "address_gmap", usesUploadTo := false },
       { name := "email", usesUploadTo := false },
       { name := "phone", usesUploadTo := false },
       { name := "phone_repr", usesUploadTo := false },
       { name := "whatsapp", usesUploadTo := false },
       { name := "whatsapp_repr", usesUploadTo := false },
       { name := "banner_link", usesUploadTo := false },
       { name := "banner_image", usesUploadTo := true }] }

/-! ## Admin add permission (admin.py, SiteSettingsAdmin) -/

/-- Translation of SiteSettingsAdmin.has_add_permission: when the
SiteSettings table already has a row the method returns False without
consulting the framework default, otherwise it defers to it. -/
def has_add_permission (t : List Entity) (superResult : Bool) : Bool :=
  if t.isEmpty then superResult else false

/-! ## Claim theorems -/

/-- C9: for every list and every index value the index template filter
returns the empty string: any lookup failure is discarded without raising
and even a successful lookup result is never returned, because the return
inside the finally block always wins.  The second conjunct exhibits a
lookup that does succeed, showing the success case is real. -/
theorem C9_index_always_empty :
    (∀ (l : List PyVal) (i : PyVal), index l i = PyVal.vstr "") ∧
    indexBody [PyVal.vstr "x"] (PyVal.vint 0) = TRes.ok (PyVal.vstr "x") :=
  ⟨fun _ _ => rfl, by decide⟩

/-- C10: the admin add permission for SiteSettings is denied whenever a
settings row already exists, regardless of what the framework default
would answer, so the admin never offers creating a second row. -/
theorem C10_admin_denies_add_when_exists (t : List Entity) (s : Bool)
    (h : ¬ t.isEmpty = true) : has_add_permission t s = false := by
  unfold has_add_permission
  rw [if_neg h]

/-- Witness for C10 at a one-row table with a permissive framework
default. -/
theorem C10_witness : has_add_permission [blankSettings] true = false :=
  C10_admin_denies_add_when_exists [blankSettings] true (by decide)

/-- C2, evaluation at the failing input: the site-settings helper raises
AttributeError on every call because SiteSettings defines no get_solo,
while the three list helpers return all excursions, reviews and FAQ rows
without raising. -/
theorem C2_get_site_settings_raises (db : MainDb) :
    get_site_settings db = Except.error "AttributeError" ∧
    get_excursion_list db = db.excursions ∧
    get_review_list db = db.reviews ∧
    get_faq_list db = db.faqs :=
  ⟨rfl, rfl, rfl, rfl⟩

/-- An excursion row whose published flag is unset. -/
def unpublishedExcursion : ExcursionRow := { id := 1, is_published := false }

/-- A database holding exactly that unpublished excursion. -/
def dbWithUnpublished : MainDb :=
  { excursions := [unpublishedExcursion], reviews := [], faqs := [],
    settings := [] }

/-- C8 counterexample: an excursion with is_published unset is NOT
excluded from the collection returned by get_excursion_list, contradicting
the claim that the helpers filter on the published flag. -/
theorem C8_counterexample :
    unpublishedExcursion.is_published = false ∧
    unpublishedExcursion ∈ get_excursion_list dbWithUnpublished := by
  exact ⟨rfl, List.mem_singleton_self _⟩

/-- C8 amended: the presentation data helpers apply no filter at all:
every stored row, published or not, appears in the returned collection,
and the same rows are visible in the admin queryset; visibility gating is
left entirely to the templates. -/
theorem C8_helpers_unfiltered (db : MainDb) :
    (∀ e : ExcursionRow, e ∈ db.excursions →
      e ∈ get_excursion_list db ∧ e ∈ adminExcursionQueryset db) ∧
    (∀ r : ReviewRow, r ∈ db.reviews → r ∈ get_review_list db) ∧
    (∀ q : FAQRow, q ∈ db.faqs → q ∈ get_faq_list db) :=
  ⟨fun _ h => ⟨h, h⟩, fun _ h => h, fun _ h => h⟩

/-- Witness for C8 at the concrete database with one unpublished row. -/
theorem C8_witness :
    unpublishedExcursion ∈ get_excursion_list dbWithUnpublished ∧
    unpublishedExcursion ∈ adminExcursionQueryset dbWithUnpublished :=
  (C8_helpers_unfiltered dbWithUnpublished).1 unpublishedExcursion (by decide)

/-- C7 counterexample: SiteSettings has three image fields sharing the
upload handler; an upload received by tursab_image is stored under the
segment logo, the first matching field, not under its own name. -/
theorem C7_counterexample :
    siteSettingsMeta.fields.any
      (fun f => f.name == "tursab_image" && f.usesUploadTo) = true ∧
    upload_to siteSettingsMeta "photo.jpg" =
      "main/sitesettings/logo/photo.jpg" ∧
    upload_to siteSettingsMeta "photo.jpg" ≠
      "main/sitesettings/tursab_image/photo.jpg" := by
  refine ⟨by decide, rfl, by decide⟩

/-- C7 amended: the storage path is app/model/field/filename where the
field segment is the name of the FIRST declared field using the shared
upload handler (file when none), independent of which field received the
upload; it coincides with the receiving field only when that field is the
first such field. -/
theorem C7_first_matching_field_segment (inst : InstanceMeta)
    (filename : String) (f : FieldMeta)
    (h : inst.fields.find? (fun g => g.usesUploadTo) = some f) :
    upload_to inst filename =
      inst.app_label ++ "/" ++ inst.model_name ++ "/" ++ f.name ++ "/" ++
        filename := by
  unfold upload_to
  rw [h]

/-- Witness for C7 at the SiteSettings metadata, whose first upload field
is logo. -/
theorem C7_witness :
    upload_to siteSettingsMeta "photo.jpg" =
      siteSettingsMeta.app_label ++ "/" ++ siteSettingsMeta.model_name ++
        "/" ++ "logo" ++ "/" ++ "photo.jpg" :=
  C7_first_matching_field_segment siteSettingsMeta "photo.jpg"
    { name := "logo", usesUploadTo := true } (by decide)

/-! ### Lemmas for the singleton accessor -/

theorem find?_append_of_none {α : Type} (p : α → Bool) (l1 l2 : List α)
    (h : l1.find? p = Option.none) :
    (l1 ++ l2).find? p = l2.find? p := by
  induction l1 with
  | nil => simp
  | cons a as ih =>
    by_cases hpa : p a
    · rw [List.find?_cons_of_pos _ hpa] at h
      exact absurd h (by simp)
    · rw [List.find?_cons_of_neg _ hpa] at h
      rw [List.cons_append, List.find?_cons_of_neg _ hpa]
      exact ih h

theorem any_eq_false_of_find?_none {α : Type} (p : α → Bool) (l : List α)
    (h : l.find? p = Option.none) : l.any p = false := by
  induction l with
  | nil => rfl
  | cons a as ih =>
    by_cases hpa : p a
    · rw [List.find?_cons_of_pos _ hpa] at h
      exact absurd h (by simp)
    · rw [List.find?_cons_of_neg _ hpa] at h
      simp [List.any_cons, hpa, ih h]

/-- C5: load() always returns a record with the fixed identity 1, a second
load() finds the very record the first one produced, and saving a fresh
instance with no identity while a row exists raises ValidationError and
leaves the table untouched. -/
theorem C5_singleton_load_and_guard :
    (∀ t : List Entity,
      (SiteSettings_load t).2.pk = some 1 ∧
      (SiteSettings_load (SiteSettings_load t).1).2 = (SiteSettings_load t).2) ∧
    (∀ (t : List Entity) (self : Entity),
      ¬ t.isEmpty = true → self.pk = Option.none →
      SiteSettings_save t self = (t, Except.error "ValidationError")) := by
  constructor
  · intro t
    cases hfind : t.find? (fun r => r.pk == some 1) with
    | some e =>
      have hpk := List.find?_some hfind
      have hpk2 : e.pk = some 1 := by simpa using hpk
      have hload : SiteSettings_load t = (t, e) := by
        unfold SiteSettings_load
        rw [hfind]
      rw [hload]
      exact ⟨hpk2, by rw [hload]⟩
    | none =>
      have hany : t.any (fun r => r.pk == some 1) = false :=
        any_eq_false_of_find?_none _ _ hfind
      have hsave1 : (SiteSettings_save t { blankSettings with pk := some 1 }).1
          = t ++ [{ blankSettings with pk := some 1 }] := by
        show (if (t.any fun r => r.pk == some 1) = true then
                t.map (fun r => if (r.pk == some 1) = true then
                  { blankSettings with pk := some 1 } else r)
              else t ++ [{ blankSettings with pk := some 1 }])
            = t ++ [{ blankSettings with pk := some 1 }]
        rw [hany]
        rfl
      have hload1 : SiteSettings_load t =
          ((SiteSettings_save t { blankSettings with pk := some 1 }).1,
           { blankSettings with pk := some 1 }) := by
        unfold SiteSettings_load
        rw [hfind]
      have hfind2 : (t ++ [{ blankSettings with pk := some 1 }]).find?
          (fun r => r.pk == some 1) = some { blankSettings with pk := some 1 } := by
        rw [find?_append_of_none _ _ _ hfind]
        rfl
      have hload2 : SiteSettings_load (t ++ [{ blankSettings with pk := some 1 }])
          = (t ++ [{ blankSettings with pk := some 1 }],
             { blankSettings with pk := some 1 }) := by
        unfold SiteSettings_load
        rw [hfind2]
      rw [hload1, hsave1]
      exact ⟨rfl, by rw [hload2]⟩
  · intro t self ht hpk
    unfold SiteSettings_save
    rw [hpk]
    dsimp only
    rw [if_neg ht]

/-- Witness for C5: a load on the empty table yields identity 1, and a
fresh instance saved against a one-row table is rejected. -/
theorem C5_witness :
    (SiteSettings_load []).2.pk = some 1 ∧
    SiteSettings_save [{ blankSettings with pk := some 1 }] blankSettings =
      ([{ blankSettings with pk := some 1 }], Except.error "ValidationError") :=
  ⟨(C5_singleton_load_and_guard.1 []).1,
   C5_singleton_load_and_guard.2 [{ blankSettings with pk := some 1 }]
     blankSettings (by decide) rfl⟩

/-! ### Lemmas for the save hook failure mode -/

theorem compress_field_error (field : Option FieldFile)
    (config : CompressConfig) (e : String)
    (h : _compress_image_field field config = Except.error e) :
    e = "UnidentifiedImageError" := by
  cases field with
  | none => simp [_compress_image_field] at h
  | some f =>
    obtain ⟨fname, fdata, fenc, fct⟩ := f
    by_cases hn : fname = ""
    · simp [_compress_image_field, hn] at h
    · cases fdata with
      | corrupt =>
        simp [_compress_image_field, hn] at h
        exact h.symm
      | image img =>
        simp [_compress_image_field, hn] at h

/-- C6: whenever the save hook fails, the failure is the decoding error
raised by Image.open, it propagates out of save, the second
(update_fields) write does not occur, and the persisted row is exactly the
raw instance written by the first save. -/
theorem C6_decode_failure_leaves_raw (cfg : List (String × CompressConfig))
    (self : Entity) (e : String)
    (h : compress_images cfg self = Except.error e) :
    e = "UnidentifiedImageError" ∧ mixinSave cfg self = (some self, some e) := by
  constructor
  · induction cfg generalizing self with
    | nil => exact absurd h (by simp [compress_images])
    | cons fc rest ih =>
      rw [compress_images] at h
      cases hf : _compress_image_field (getField self fc.1) fc.2 with
      | error err =>
        rw [hf] at h
        dsimp only at h
        injection h with h
        rw [← h]
        exact compress_field_error _ _ _ hf
      | ok v =>
        rw [hf] at h
        cases v with
        | none =>
          dsimp only at h
          exact ih _ h
        | some nf =>
          dsimp only at h
          exact ih _ h
  · unfold mixinSave
    rw [h]

/-- A corrupt upload: bytes Image.open cannot decode. -/
def corruptUpload : FieldFile :=
  { name := "main/excursionimage/image/bad.png"
    data := FileData.corrupt
    encoding := Option.none
    contentType := Option.none }

/-- An ExcursionImage instance whose configured image field holds the
corrupt upload. -/
def excursionImageWithCorrupt : Entity :=
  { pk := some 5, fields := [("image", some corruptUpload)] }

/-- Witness for C6 at the corrupt ExcursionImage instance. -/
theorem C6_witness :
    mixinSave ExcursionImage_image_compression_config excursionImageWithCorrupt =
      (some excursionImageWithCorrupt, some "UnidentifiedImageError") :=
  (C6_decode_failure_leaves_raw ExcursionImage_image_compression_config
    excursionImageWithCorrupt "UnidentifiedImageError" rfl).2

/-- C4: every non-empty, decodable image field processed by the utility
yields a payload encoded as JPEG at the configured quality (default 70)
with optimize enabled and content type image/jpeg, named by the original
filename stem followed by .jpg whatever the original extension was. -/
theorem C4_compress_jpeg_payload (f : FieldFile) (cfg : CompressConfig)
    (img : Img) (hname : f.name ≠ "") (hdata : f.data = FileData.image img) :
    ∃ f', _compress_image_field (some f) cfg = Except.ok (some f') ∧
      f'.encoding = some { format := "JPEG",
                           quality := cfg.quality.getD default_quality,
                           optimize := true } ∧
      f'.contentType = some "image/jpeg" ∧
      f'.name = fileStem f.name ++ ".jpg" := by
  have hcomp : _compress_image_field (some f) cfg = Except.ok (some
      { name := fileStem f.name ++ ".jpg"
        data := FileData.image (thumbnail
          (if img.mode = "RGB" then img else { img with mode := "RGB" })
          (cfg.max_width.getD default_max_width)
          (cfg.max_height.getD default_max_height))
        encoding := some { format := "JPEG",
                           quality := cfg.quality.getD default_quality,
                           optimize := true }
        contentType := some "image/jpeg" }) := by
    simp only [_compress_image_field]
    rw [if_neg hname, hdata]
  exact ⟨_, hcomp, rfl, rfl, rfl⟩

/-- The raw cover upload used by the C3 and C4 witnesses: a 4000 by 3000
image with an uppercase PNG extension. -/
def rawCoverUpload : FieldFile :=
  { name := "main/excursion/cover/pic.PNG"
    data := FileData.image { width := 4000, height := 3000, mode := "RGB" }
    encoding := Option.none
    contentType := Option.none }

/-- The policy Excursion configures for its cover field. -/
def coverPolicy : CompressConfig :=
  { max_width := some 1280, max_height := some 1280, quality := some 75 }

/-- Witness for C4 at the concrete cover upload and cover policy. -/
theorem C4_witness :
    ∃ f', _compress_image_field (some rawCoverUpload) coverPolicy =
        Except.ok (some f') ∧
      f'.encoding = some { format := "JPEG",
                           quality := coverPolicy.quality.getD default_quality,
                           optimize := true } ∧
      f'.contentType = some "image/jpeg" ∧
      f'.name = fileStem rawCoverUpload.name ++ ".jpg" :=
  C4_compress_jpeg_payload rawCoverUpload coverPolicy
    { width := 4000, height := 3000, mode := "RGB" } (by decide) rfl

/-- C3: on a non-empty decodable field, the utility resizes with the
configured bounding box (each axis defaulting to 1280): an image already
inside the box keeps its dimensions exactly (no upscaling), and an image
exceeding the box comes out with both dimensions at most the maxima and
with the aspect ratio preserved up to one rounding step, expressed
cross-multiplied. -/
theorem C3_compress_respects_bounding_box (f : FieldFile)
    (cfg : CompressConfig) (img : Img)
    (hdata : f.data = FileData.image img) (hname : f.name ≠ "")
    (hw : 0 < img.width) (hh : 0 < img.height)
    (hmw : 0 < cfg.max_width.getD default_max_width)
    (hmh : 0 < cfg.max_height.getD default_max_height) :
    ∃ f' img', _compress_image_field (some f) cfg = Except.ok (some f') ∧
      f'.data = FileData.image img' ∧
      ((img.width ≤ cfg.max_width.getD default_max_width ∧
        img.height ≤ cfg.max_height.getD default_max_height) →
        (img'.width = img.width ∧ img'.height = img.height)) ∧
      (¬(img.width ≤ cfg.max_width.getD default_max_width ∧
         img.height ≤ cfg.max_height.getD default_max_height) →
        (img'.width ≤ cfg.max_width.getD default_max_width ∧
         img'.height ≤ cfg.max_height.getD default_max_height ∧
         img'.width * img.height ≤
           img'.height * img.width + max img.width img.height ∧
         img'.height * img.width ≤
           img'.width * img.height + max img.width img.height)) := by
  have hcomp : _compress_image_field (some f) cfg = Except.ok (some
      { name := fileStem f.name ++ ".jpg"
        data := FileData.image (thumbnail
          (if img.mode = "RGB" then img else { img with mode := "RGB" })
          (cfg.max_width.getD default_max_width)
          (cfg.max_height.getD default_max_height))
        encoding := some { format := "JPEG",
                           quality := cfg.quality.getD default_quality,
                           optimize := true }
        contentType := some "image/jpeg" }) := by
    simp only [_compress_image_field]
    rw [if_neg hname, hdata]
  have h1w : (if img.mode = "RGB" then img else { img with mode := "RGB" }).width
      = img.width := by
    by_cases hm : img.mode = "RGB" <;> simp [hm]
  have h1h : (if img.mode = "RGB" then img else { img with mode := "RGB" }).height
      = img.height := by
    by_cases hm : img.mode = "RGB" <;> simp [hm]
  refine ⟨_, _, hcomp, rfl, ?_, ?_⟩
  · intro hfit
    have heq := thumbnail_eq_of_fits
      (if img.mode = "RGB" then img else { img with mode := "RGB" })
      (cfg.max_width.getD default_max_width)
      (cfg.max_height.getD default_max_height)
      (by rw [h1w]; exact hfit.1) (by rw [h1h]; exact hfit.2)
    rw [heq, h1w, h1h]
    exact ⟨rfl, rfl⟩
  · intro hnot
    have hnot1 : ¬((if img.mode = "RGB" then img else { img with mode := "RGB" }).width
          ≤ cfg.max_width.getD default_max_width ∧
        (if img.mode = "RGB" then img else { img with mode := "RGB" }).height
          ≤ cfg.max_height.getD default_max_height) := by
      rw [h1w, h1h]; exact hnot
    have hb := thumbnail_bounds
      (if img.mode = "RGB" then img else { img with mode := "RGB" })
      (cfg.max_width.getD default_max_width)
      (cfg.max_height.getD default_max_height)
      (by rw [h1w]; exact hw) (by rw [h1h]; exact hh) hmw hmh hnot1
    have ha := thumbnail_aspect
      (if img.mode = "RGB" then img else { img with mode := "RGB" })
      (cfg.max_width.getD default_max_width)
      (cfg.max_height.getD default_max_height)
      (by rw [h1w]; exact hw) (by rw [h1h]; exact hh) hnot1
    rw [h1w, h1h] at ha
    exact ⟨hb.1, hb.2, ha.1, ha.2⟩

/-- Witness for C3 at the oversized concrete cover upload. -/
theorem C3_witness :
    ∃ f' img', _compress_image_field (some rawCoverUpload) coverPolicy =
        Except.ok (some f') ∧
      f'.data = FileData.image img' ∧
      (((4000:Nat) ≤ coverPolicy.max_width.getD default_max_width ∧
        (3000:Nat) ≤ coverPolicy.max_height.getD default_max_height) →
        (img'.width = 4000 ∧ img'.height = 3000)) ∧
      (¬((4000:Nat) ≤ coverPolicy.max_width.getD default_max_width ∧
         (3000:Nat) ≤ coverPolicy.max_height.getD default_max_height) →
        (img'.width ≤ coverPolicy.max_width.getD default_max_width ∧
         img'.height ≤ coverPolicy.max_height.getD default_max_height ∧
         img'.width * 3000 ≤ img'.height * 4000 + max 4000 3000 ∧
         img'.height * 4000 ≤ img'.width * 3000 + max 4000 3000)) :=
  C3_compress_respects_bounding_box rawCoverUpload coverPolicy
    { width := 4000, height := 3000, mode := "RGB" } rfl (by decide)
    (by decide) (by decide) (by decide) (by decide)

/-- The raw banner upload for the C1 evaluation: an image well outside
the configured 1080 by 520 banner policy. -/
def rawBannerUpload : FieldFile :=
  { name := "main/sitesettings/logo/banner.png"
    data := FileData.image { width := 4000, height := 3000, mode := "RGB" }
    encoding := Option.none
    contentType := Option.none }

/-- A SiteSettings instance about to be saved with that raw upload in its
banner_image field. -/
def settingsWithBanner : Entity :=
  { pk := Option.none
    fields := [("logo", Option.none), ("tursab_image", Option.none),
               ("banner_image", some rawBannerUpload)] }

/-- C1, evaluation at the failing input: SiteSettings has a non-empty
image compression policy map, yet saving an instance whose banner_image
holds a raw oversized upload persists exactly that raw upload as the final
state: the single write stores the unencoded 4000 by 3000 image, the
policy key banner matches no field of the instance, and the compressed
form the policy demands would have had a different width, so the stored
bytes are not the compressed form.  The compression hook never runs on
SiteSettings because models.Model precedes ImageCompressionMixin in its
bases. -/
theorem C1_siteSettings_save_keeps_raw_upload :
    SiteSettings_image_compression_config ≠ [] ∧
    SiteSettings_save [] settingsWithBanner =
      ([{ settingsWithBanner with pk := some 1 }],
       Except.ok { settingsWithBanner with pk := some 1 }) ∧
    getField { settingsWithBanner with pk := some 1 } "banner_image" =
      some rawBannerUpload ∧
    rawBannerUpload.encoding = Option.none ∧
    rawBannerUpload.data = FileData.image { width := 4000, height := 3000, mode := "RGB" } ∧
    (∀ p ∈ SiteSettings_image_compression_config,
      settingsWithBanner.fields.all (fun q => q.1 != p.1) = true) ∧
    (thumbnail { width := 4000, height := 3000, mode := "RGB" } 1080 520).width ≠ 4000 := by
  refine ⟨by decide, rfl, by decide, rfl, rfl, by decide, by decide⟩

end MainApp
